import Mathlib

/-!
Verification of the lazy_teacher control-plane tool (a Proxmox VE classroom
fleet manager) against its natural-language specification.

The relevant Python modules are shallowly embedded below: pure computations
become Lean functions, hypervisor interactions become explicit oracles
(environment records) and event traces.  Machine integers are Nat; fallible
code returns Option; Python dicts keyed by strings are association lists in
insertion order; Python sets are duplicate-free lists.
-/

/-! ## String primitives

The embedding manipulates the same string tokens as the Python code
(`bridge.split('.')`, `iface.startswith('vmbr')`, `int(num_str)`, ...).
These are implemented over the character list of a string so that every
definition evaluates inside the Lean kernel.  Parsing with `strToNat?`
accepts exactly nonempty all-digit strings; Python's `int` additionally
tolerates surrounding whitespace, signs and digit-group underscores, which
never occur in the interface names and VLAN suffixes handled here.
-/

def charsPrefix : List Char → List Char → Bool
  | [], _ => true
  | _ :: _, [] => false
  | a :: as, b :: bs => a == b && charsPrefix as bs

/-- Whether `p` occurs as a prefix of `s` (Python `s.startswith(p)`). -/
def strStartsWith (s p : String) : Bool := charsPrefix p.data s.data

/-- Whether `s` contains character `c` (Python `c in s` for one character). -/
def strContainsChar (s : String) (c : Char) : Bool := s.data.contains c

def charsInfix (needle : List Char) : List Char → Bool
  | [] => charsPrefix needle []
  | c :: cs => charsPrefix needle (c :: cs) || charsInfix needle cs

/-- Whether `p` occurs as a substring of `s` (Python `p in s`). -/
def strHasInfix (s p : String) : Bool := charsInfix p.data s.data

def splitCharsAux (sep : List Char) : Nat → List Char → List Char → List (List Char)
  | 0, acc, rest => [acc.reverse ++ rest]
  | _ + 1, acc, [] => [acc.reverse]
  | fuel + 1, acc, c :: cs =>
    if charsPrefix sep (c :: cs) then
      acc.reverse :: splitCharsAux sep fuel [] (List.drop sep.length (c :: cs))
    else
      splitCharsAux sep fuel (c :: acc) cs

/-- Python `s.split(sep)` for a nonempty separator. -/
def strSplitOn (s sep : String) : List String :=
  (splitCharsAux sep.data (s.data.length + 1) [] s.data).map String.mk

def charIsDigit (c : Char) : Bool := '0' ≤ c && c ≤ '9'

/-- Python `int(s)` restricted to nonempty all-digit strings (`s.isdigit()`);
anything else is `none` (Python raises `ValueError`). -/
def strToNat? (s : String) : Option Nat :=
  if s.data ≠ [] ∧ s.data.all charIsDigit then
    some (s.data.foldl (fun n c => n * 10 + (c.toNat - 48)) 0)
  else none

/-- Python `s.strip('*')`: remove leading and trailing asterisks. -/
def stripStars (s : String) : String :=
  String.mk (((s.data.dropWhile (· == '*')).reverse.dropWhile (· == '*')).reverse)

/-- Python `s[n:]` on the strings handled here (ASCII interface names). -/
def strDrop (s : String) (n : Nat) : String := String.mk (s.data.drop n)

example : strStartsWith "**vmbr0" "**" = true := by decide

example : strSplitOn "lan.200" "." = ["lan", "200"] := by decide

example : strSplitOn "model=virtio,bridge=vmbr1000,tag=7" "bridge=" =
    ["model=virtio,", "vmbr1000,tag=7"] := by decide

example : strToNat? "1000" = some 1000 := by decide

example : strToNat? "" = none := by decide

example : strToNat? "10a" = none := by decide

example : stripStars "**vmbr0" = "vmbr0" := by decide

example : strDrop "vmbr1002" 4 = "1002" := by decide

example : strHasInfix "model=virtio,bridge=vmbr1" "bridge=" = true := by decide

/-! ## Task Waiter (src/modules/tasks.py)

`wait_for_task` polls `proxmox.nodes(node).tasks(task_id).status.get()` every
`check_interval` seconds while the elapsed time is below `timeout`.  The poll
outcome is abstracted as an oracle `poll : Nat → TaskView` giving the status
returned by the k-th poll.  Polls are modelled as instantaneous, so the k-th
poll happens at elapsed time `k * interval` and the number of polls before
the `while` guard fails is `⌈timeout / interval⌉`.  The intervals 2.0 and 5.0
seconds in the source are integral, so times are Nat seconds.
-/

/-- One observation of `status.current` for the task: still running, stopped
with the given `exitstatus` string, or an exception while checking. -/
inductive TaskView
  | running
  | stopped (exitstatus : String)
  | statusError
deriving DecidableEq

/-- Outcome of the waiter.  With the source's default `raise_exceptions=True`
the three non-`ok` outcomes raise; with `False` they return `False`.  Either
way they fail the wait, which is all the distinction the callers use. -/
inductive WaitResult
  | ok
  | failed (exitstatus : String)
  | errored
  | timedOut
deriving DecidableEq

/-- Number of iterations of `while time.time() - start_time < timeout` when
each iteration costs `check_interval` seconds: the ceiling of
`timeout / interval`. -/
def maxPolls (timeout interval : Nat) : Nat := (timeout + interval - 1) / interval

def waitForTaskAux (poll : Nat → TaskView) : Nat → Nat → WaitResult
  | 0, _ => .timedOut
  | n + 1, k =>
    match poll k with
    | .running => waitForTaskAux poll n (k + 1)
    | .stopped es => if strStartsWith es "OK" then .ok else .failed es
    | .statusError => .errored

/-- Function `wait_for_task(proxmox, node, task_id, task_type, timeout, check_interval)`:
poll until the task status is `stopped`, classify the exit status by whether
it begins with "OK", fail once the timeout window is exhausted. -/
def wait_for_task (poll : Nat → TaskView) (timeout interval : Nat) : WaitResult :=
  waitForTaskAux poll (maxPolls timeout interval) 0

/-- Wrapper `wait_for_clone_task`: kind "clone", timeout 1800 s, interval 2 s. -/
def wait_for_clone_task (poll : Nat → TaskView) : WaitResult :=
  wait_for_task poll 1800 2

/-- Wrapper `wait_for_migration_task`: kind "migration", timeout 1200 s, interval 5 s. -/
def wait_for_migration_task (poll : Nat → TaskView) : WaitResult :=
  wait_for_task poll 1200 5

/-- Wrapper `wait_for_snapshot_task`: kind "snapshot", timeout 600 s, interval 2 s. -/
def wait_for_snapshot_task (poll : Nat → TaskView) : WaitResult :=
  wait_for_task poll 600 2

/-- Wrapper `wait_for_template_task`: kind "template", timeout 1800 s, interval 2 s. -/
def wait_for_template_task (poll : Nat → TaskView) : WaitResult :=
  wait_for_task poll 1800 2

/-- Default parameters of `wait_for_task` itself (generic tasks:
delete / start / stop): timeout 300 s, interval 2 s. -/
def wait_for_generic_task (poll : Nat → TaskView) : WaitResult :=
  wait_for_task poll 300 2

/-! ## Data model (stand specification, section 3 of the spec)

A stand is an ordered list of machines; each machine carries a device type,
its template coordinates and an ordered list of NIC bindings.  A NIC binding
is the raw bridge token string exactly as stored in the YAML stand file:
either a static reference prefixed with two asterisks, or a symbolic alias
optionally suffixed with a VLAN id after a dot.
-/

structure NIC where
  bridge : String
deriving DecidableEq

structure Machine where
  name : String
  device_type : String
  template_vmid : Nat
  template_node : String
  networks : List NIC
deriving DecidableEq

structure Stand where
  machines : List Machine
deriving DecidableEq

/-! ## Bridge Planner (src/modules/deploy_stand_local.py)

`get_next_bridge_number(proxmox, node)` reads the node's network interface
list, collects the numeric suffixes of interfaces named `vmbr<N>` and scans
upward from 1000 for the first number not in that set.  The interface list
is embedded as the list of `iface` names returned by
`proxmox.nodes(node).network.get()`; the unbounded `while num in existing`
loop is run with enough fuel to pass every taken number.
-/

/-- Numeric suffixes of the interfaces whose name starts with "vmbr"
(`iface[4:]` parsed with `int`, parse failures logged and skipped). -/
def vmbrNumbers (ifaces : List String) : List Nat :=
  ifaces.filterMap fun iface =>
    if strStartsWith iface "vmbr" then strToNat? (strDrop iface 4) else none

/-- The loop `num = 1000; while num in existing_bridges: num += 1`, with fuel. -/
def firstFreeFrom (taken : List Nat) : Nat → Nat → Nat
  | 0, n => n
  | fuel + 1, n => if n ∈ taken then firstFreeFrom taken fuel (n + 1) else n

/-- Function `get_next_bridge_number`: minimal free `vmbr` number scanning from
1000.  Fuel `taken.length + 1` always suffices to clear the taken set. -/
def get_next_bridge_number (ifaces : List String) : Nat :=
  let taken := vmbrNumbers ifaces
  firstFreeFrom taken (taken.length + 1) 1000

/-- One per-alias entry of the bridge plan produced by `create_bridges`.
The source stores the formatted name `f"vmbr{bridge_number}"`; the embedding
keeps the number and derives the name with the same formatting
(`bridgeName`), so that numeric invariants can be stated directly. -/
structure BridgeConfig where
  vlan_aware : Bool
  vmbr_num : Nat
  vlans : List Nat
deriving DecidableEq

/-- The `vmbr_name` field of the source: `f"vmbr{bridge_number}"`. -/
def bridgeName (c : BridgeConfig) : String := "vmbr" ++ toString c.vmbr_num

/-- The in-progress `bridge_configs` dict (insertion-ordered association
list) together with the running `bridge_number` counter. -/
structure PlanState where
  cfgs : List (String × BridgeConfig)
  next : Nat
deriving DecidableEq

/-- Dict lookup `bridge_configs[alias]` / `alias in bridge_configs`. -/
def lookupAlias (cfgs : List (String × BridgeConfig)) (a : String) :
    Option BridgeConfig :=
  match cfgs with
  | [] => none
  | e :: rest => if e.1 = a then some e.2 else lookupAlias rest a

/-- In-place dict value update `bridge_configs[alias] = f(old)`. -/
def updateAlias (cfgs : List (String × BridgeConfig)) (a : String)
    (f : BridgeConfig → BridgeConfig) : List (String × BridgeConfig) :=
  cfgs.map fun e => if e.1 = a then (e.1, f e.2) else e

/-- The body of the nested `for machine / for network` loop of
`create_bridges`, processing one raw bridge token:
tokens starting with `**` are skipped; a token with a dot allocates or
updates a VLAN-aware entry for the alias before the first dot and records
the VLAN id; a plain token allocates a non-VLAN-aware entry on first
sighting.  Fresh entries take the current `bridge_number`, which is then
incremented.  A non-numeric VLAN suffix raises `ValueError` in the source;
it is parsed to 0 here and never occurs in the claims below, which do not
inspect the `vlans` field. -/
def planStep (st : PlanState) (bridge : String) : PlanState :=
  if strStartsWith bridge "**" then st
  else if strContainsChar bridge '.' then
    let aka := (strSplitOn bridge ".").headI
    let vlan := (strToNat? ((strSplitOn bridge ".").getD 1 "")).getD 0
    match lookupAlias st.cfgs aka with
    | none =>
      { cfgs := st.cfgs ++ [(aka,
          { vlan_aware := true, vmbr_num := st.next, vlans := [vlan] })],
        next := st.next + 1 }
    | some _ =>
      { st with cfgs := updateAlias st.cfgs aka fun c =>
          { c with vlan_aware := true, vlans := c.vlans.insert vlan } }
  else
    match lookupAlias st.cfgs bridge with
    | none =>
      { cfgs := st.cfgs ++ [(bridge,
          { vlan_aware := false, vmbr_num := st.next, vlans := [] })],
        next := st.next + 1 }
    | some _ => st

/-- The flattened sequence of raw bridge tokens of a stand, in the order the
nested loop of `create_bridges` visits them. -/
def standTokens (stand : Stand) : List String :=
  (stand.machines.map fun m => m.networks.map NIC.bridge).flatten

/-- Function `create_bridges(stand, proxmox, node)`: seed the counter from
`get_next_bridge_number` and fold the token sequence into the plan.  The
subsequent bridge-creation REST calls do not alter the returned mapping. -/
def create_bridges (stand : Stand) (ifaces : List String) :
    List (String × BridgeConfig) :=
  ((standTokens stand).foldl planStep
    { cfgs := [], next := get_next_bridge_number ifaces }).cfgs

/-! ### Allocation facts for the planner -/

/-! ### The consecutively-numbered plan invariant -/

/-- The numbers of the plan entries, in insertion order. -/
def planNums (cfgs : List (String × BridgeConfig)) : List Nat :=
  cfgs.map fun e => e.2.vmbr_num

/-- Invariant carried through `create_bridges`: the allocated numbers are
exactly `start, start+1, ...` and the counter sits one past the last. -/
def PlanInv (start : Nat) (st : PlanState) : Prop :=
  st.next = start + st.cfgs.length ∧
    planNums st.cfgs = List.range' start st.cfgs.length

/-! ### VLAN-awareness of the plan -/

/-- Token `t` is a symbolic NIC binding on alias `a` carrying a VLAN suffix:
not a static `**` reference, contains a dot, and the part before the first
dot is `a`. -/
def vlanTokFor (a t : String) : Bool :=
  !strStartsWith t "**" && strContainsChar t '.' &&
    decide ((strSplitOn t ".").headI = a)

/-! ## NIC wiring (configure_vm_network in src/modules/deploy_stand_local.py)

`configure_vm_network` walks the machine's NIC list with `enumerate`, builds
a `net<i>` config string per NIC and applies each with one `config.put`.
For `device_type == 'ecorouter'` every NIC uses model vmxnet3 and a MAC
generated from the OUI prefix 1C:87:76:40 plus two `secrets.randbelow(256)`
bytes; the NIC at index 0 additionally gets `link_down=1`.  Randomness is an
oracle `rnd : Nat → Nat`: NIC `i` consumes draws `2*i` and `2*i+1`.  A
symbolic token whose alias is missing from the plan raises `KeyError` in the
source; the embedding returns `none` there.
-/

def hexDigit (n : Nat) : Char :=
  Char.ofNat (if n < 10 then 48 + n else 87 + n)

/-- Python `f"{b:02x}"` for a byte. -/
def hex2 (b : Nat) : String := String.mk [hexDigit (b / 16), hexDigit (b % 16)]

/-- Python colon-join of the two-digit hex bytes 0x1C, 0x87, 0x76, 0x40, r1, r2. -/
def macString (b4 b5 : Nat) : String :=
  hex2 0x1C ++ ":" ++ hex2 0x87 ++ ":" ++ hex2 0x76 ++ ":" ++ hex2 0x40 ++
    ":" ++ hex2 b4 ++ ":" ++ hex2 b5

/-- The MAC generated while wiring NIC `i` (two fresh random bytes). -/
def macFor (rnd : Nat → Nat) (i : Nat) : String :=
  macString (rnd (2 * i) % 256) (rnd (2 * i + 1) % 256)

example : macFor (fun _ => 0) 0 = "1c:87:76:40:00:00" := by decide

example : macFor (fun _ => 171) 0 = "1c:87:76:40:ab:ab" := by decide

/-- The bridge a NIC token attaches to: `bridge.strip('*')` for a static
`**` token, otherwise `bridge_configs[bridge.split('.')[0]]['vmbr_name']`
(none models the `KeyError` when the alias is not in the plan). -/
def resolveBridge (plan : List (String × BridgeConfig)) (bridge : String) :
    Option String :=
  if strStartsWith bridge "**" then some (stripStars bridge)
  else (lookupAlias plan ((strSplitOn bridge ".").headI)).map bridgeName

/-- Suffix ",tag=<vlan>" when the token has a VLAN suffix, else nothing. -/
def tagSuffix (bridge : String) : String :=
  if strContainsChar bridge '.' then
    ",tag=" ++ (strSplitOn bridge ".").getD 1 ""
  else ""

/-- The ecorouter net-config string for NIC index `i`: model vmxnet3, the
resolved bridge, the VLAN tag if any, `link_down=1` exactly at index 0, and
the generated MAC. -/
def ecoNic (i : Nat) (resolved bridge mac : String) : String :=
  "model=vmxnet3,bridge=" ++ resolved ++ tagSuffix bridge ++
    (if i = 0 then ",link_down=1" else "") ++ ",macaddr=" ++ mac

/-- One NIC of `configure_vm_network`: the linux branch builds
`model=virtio` configs (static tokens never get a tag, symbolic tokens get
one when suffixed); the ecorouter branch overrides with `ecoNic`. -/
def wire_nic (plan : List (String × BridgeConfig)) (device_type : String)
    (i : Nat) (bridge mac : String) : Option String :=
  if device_type = "ecorouter" then
    (resolveBridge plan bridge).map fun r => ecoNic i r bridge mac
  else
    if strStartsWith bridge "**" then
      some ("model=virtio,bridge=" ++ stripStars bridge)
    else
      (lookupAlias plan ((strSplitOn bridge ".").headI)).map fun c =>
        "model=virtio,bridge=" ++ bridgeName c ++ tagSuffix bridge

def configureAux (plan : List (String × BridgeConfig)) (dt : String)
    (rnd : Nat → Nat) : Nat → List String → Option (List (String × String))
  | _, [] => some []
  | i, b :: rest =>
    (wire_nic plan dt i b (macFor rnd i)).bind fun s =>
      (configureAux plan dt rnd (i + 1) rest).bind fun tail =>
        some (("net" ++ toString i, s) :: tail)

/-- Function `configure_vm_network(proxmox, node, vmid, networks, bridge_configs,
machine_name, device_type)`: the ordered list of `(net_key, net_config)`
pairs it applies. -/
def configure_vm_network (plan : List (String × BridgeConfig)) (dt : String)
    (networks : List NIC) (rnd : Nat → Nat) : Option (List (String × String)) :=
  configureAux plan dt rnd 0 (networks.map NIC.bridge)

/-! ## Per-machine deployment ordering (src/modules/deploy_stand_local.py)

The per-user VM loop of `deploy_stand_local` performs, for each machine in
the stand's declared order: allocate a VMID and start the clone; wait for
the clone task ONLY when an explicit `target_node` argument was supplied
("Wait for clone to complete only for distributed deployment"); configure
the networks; grant the VM ACL; create the `start` snapshot and wait for
the snapshot task.  The trace below records these steps on the successful
path (oracle failures in the source skip a machine or its snapshot wait and
never reorder steps); machines are labelled by their position. -/

inductive DeployEv
  | cloneStart (m : Nat)
  | cloneWait (m : Nat)
  | nicConfig (m : Nat)
  | aclVM (m : Nat)
  | snapCreate (m : Nat)
  | snapWait (m : Nat)
deriving DecidableEq

/-- One iteration of `for machine in stand['machines']`, `targetGiven`
mirroring `if target_node: wait_clone_func(...)`. -/
def deployMachineEvents (targetGiven : Bool) (m : Nat) : List DeployEv :=
  [.cloneStart m] ++ (if targetGiven then [.cloneWait m] else []) ++
    [.nicConfig m, .aclVM m, .snapCreate m, .snapWait m]

/-- The whole VM loop over the machine labels, in order. -/
def deployMachinesEvents (targetGiven : Bool) : List Nat → List DeployEv
  | [] => []
  | m :: rest => deployMachineEvents targetGiven m ++ deployMachinesEvents targetGiven rest

/-! ## Teardown (delete_user_stand_logic in src/modules/deletion.py)

The function validates the user and the pool, fetches pool members, and on
the main path runs numbered steps: collect the custom bridges from the VM
configs (vmbr1000..1999, never vmbr0), stop running VMs (aborting if any
stop fails or is refused), DELETE THE BRIDGES, reload the network on every
node in use, delete the VMs, delete pool and user, and finally report
`len(deleted_vmids) > 0 or pool_deleted or user_deleted`.  Hypervisor
outcomes are oracle fields of `TeardownEnv`; the trace records the mutating
calls in program order with their outcome. -/

structure Member where
  vmid : Nat
  node : String
deriving DecidableEq

structure TeardownEnv where
  userExists : Bool
  poolExists : Bool
  members : Option (List Member)
  vmConfig : Nat → List (String × String)
  runningB : Nat → Bool
  stopOk : Nat → Bool
  delVmOk : Nat → Bool
  delBridgeOk : String → String → Bool
  delPoolOk : Bool
  delUserOk : Bool

inductive TeardownEv
  | stopVM (vmid : Nat) (ok : Bool)
  | delBridge (bridge node : String) (ok : Bool)
  | reloadNet (node : String)
  | delVM (vmid : Nat) (ok : Bool)
  | delPool (ok : Bool)
  | delUser (ok : Bool)
deriving DecidableEq

/-- Python truthiness guard `if not vmid or not node: continue`. -/
def validMember (m : Member) : Bool := m.vmid != 0 && m.node != ""

/-- Python `value.split('bridge=')[1].split(',')[0]` guarded by `'bridge=' in value`. -/
def bridgeOfNetValue (value : String) : Option String :=
  if strHasInfix value "bridge=" then
    some ((strSplitOn ((strSplitOn value "bridge=").getD 1 "") ",").headI)
  else none

/-- Function `_collect_bridges_to_delete` for one member: every `net*` entry
whose bridge is `vmbr<N>` with `1000 ≤ N ≤ 1999` (and never vmbr0)
contributes `(bridge, node)`. -/
def memberBridges (env : TeardownEnv) (m : Member) : List (String × String) :=
  (env.vmConfig m.vmid).filterMap fun kv =>
    if strStartsWith kv.1 "net" then
      match bridgeOfNetValue kv.2 with
      | some bp =>
        if bp = "vmbr0" then none
        else if strStartsWith bp "vmbr" then
          match strToNat? (strDrop bp 4) with
          | some n => if 1000 ≤ n ∧ n ≤ 1999 then some (bp, m.node) else none
          | none => none
        else none
      | none => none
    else none

/-- The Python `set` of collected bridges, as a duplicate-free list. -/
def dedupAppend (l : List (String × String)) : List (String × String) :=
  l.foldl (fun acc p => if p ∈ acc then acc else acc ++ [p]) []

def collectBridges (env : TeardownEnv) (ms : List Member) :
    List (String × String) :=
  dedupAppend ((ms.filter validMember).map (memberBridges env)).flatten

/-- Python set comprehension of the node fields of members with a node set. -/
def tdNodesInUse (ms : List Member) : List String :=
  (ms.filterMap fun m => if m.node != "" then some m.node else none).dedup

def tdValids (ms : List Member) : List Member := ms.filter validMember

/-- The members `_check_running_vms` reports as running. -/
def tdRunning (env : TeardownEnv) (ms : List Member) : List Member :=
  (tdValids ms).filter fun m => env.runningB m.vmid

def tdStopEvs (env : TeardownEnv) (ms : List Member) : List TeardownEv :=
  (tdRunning env ms).map fun m => TeardownEv.stopVM m.vmid (env.stopOk m.vmid)

/-- The six mutation phases of the main path, in the order the source runs
them: stop running VMs, delete bridges, reload networks, delete VMs, delete
pool, delete user. -/
def tdParts (env : TeardownEnv) (ms : List Member) : List (List TeardownEv) :=
  [tdStopEvs env ms,
   (collectBridges env ms).map fun p =>
     TeardownEv.delBridge p.1 p.2 (env.delBridgeOk p.1 p.2),
   (tdNodesInUse ms).map TeardownEv.reloadNet,
   (tdValids ms).map fun m => TeardownEv.delVM m.vmid (env.delVmOk m.vmid),
   [TeardownEv.delPool env.delPoolOk],
   [TeardownEv.delUser env.delUserOk]]

/-- Function `delete_user_stand_logic(prox, pool_name, user, auto_stop)`: overall
success flag and the trace of mutating hypervisor calls. -/
def delete_user_stand_logic (env : TeardownEnv) : Bool × List TeardownEv :=
  if !env.userExists then (false, [])
  else if !env.poolExists then (false, [])
  else
    match env.members with
    | none => (false, [])
    | some ms =>
      if ms.isEmpty then
        (true, [TeardownEv.delPool env.delPoolOk, TeardownEv.delUser env.delUserOk])
      else if (tdNodesInUse ms).isEmpty then (false, [])
      else if !((tdRunning env ms).all fun m => env.stopOk m.vmid) then
        (false, tdStopEvs env ms)
      else
        (!((tdValids ms).filter fun m => env.delVmOk m.vmid).isEmpty
           || env.delPoolOk || env.delUserOk,
         (tdParts env ms).flatten)

/-- Program-order phase of a teardown event. -/
def phase : TeardownEv → Nat
  | .stopVM _ _ => 0
  | .delBridge _ _ _ => 1
  | .reloadNet _ => 2
  | .delVM _ _ => 3
  | .delPool _ => 4
  | .delUser _ => 5

/-! ## Distributor (src/modules/deploy_stand_distributed.py)

After reading the stand and users, `deploy_stand_distributed` enumerates the
cluster nodes, refuses fewer than two, runs `sync_templates` once, and then
deploys each user sequentially with `target_node = nodes[user_index %
len(nodes)]` by calling `deploy_stand_local` for that single user.  The
embedding returns the event sequence, `none` on refusal. -/

inductive DistEv
  | syncTemplates
  | deployUser (user node : String)
deriving DecidableEq

def deploy_stand_distributed (nodes users : List String) : Option (List DistEv) :=
  if nodes.length < 2 then none
  else some (DistEv.syncTemplates ::
    (List.range users.length).map fun i =>
      DistEv.deployUser (users.getD i "") (nodes.getD (i % nodes.length) ""))

/-! ## Template replica naming (src/modules/sync_templates.py and
src/modules/templates.py)

Both modules create a replica by clone, convert-to-template and offline
migration, at the freshly allocated cluster VMID.  They differ in the name
given to the clone: `_create_template_replica` in sync_templates.py (the
path driven by `sync_templates` during distributed deployment) uses
`safe_name = f"tpl-{original_node}-{template_vmid}"`, while
`ensure_template_on_node` in templates.py uses
`safe_name = f"tpl-{original_vmid}-{target_node}"`. -/

structure CloneRequest where
  node : String
  source_vmid : Nat
  newid : Nat
  name : String
  full : Nat
deriving DecidableEq

inductive SyncEv
  | cloneReq (r : CloneRequest)
  | taskWaited (kind : String)
  | convertToTemplate (node : String) (vmid : Nat)
  | migrateOffline (node : String) (vmid : Nat) (target : String)
  | replicaAssigned (target : String) (vmid : Nat)
deriving DecidableEq

/-- Function `_create_template_replica(prox, original_node, template_vmid,
target_node, machines)` on its successful path. -/
def create_template_replica (nextid : Nat) (original_node : String)
    (template_vmid : Nat) (target_node : String) : List SyncEv :=
  [SyncEv.cloneReq ⟨original_node, template_vmid, nextid,
      "tpl-" ++ original_node ++ "-" ++ toString template_vmid, 1⟩,
   SyncEv.taskWaited "clone",
   SyncEv.convertToTemplate original_node nextid,
   SyncEv.taskWaited "template",
   SyncEv.migrateOffline original_node nextid target_node,
   SyncEv.taskWaited "migration",
   SyncEv.replicaAssigned target_node nextid]

/-- Function `ensure_template_on_node(prox, original_vmid, source_node, target_node)`
on its replica-creating successful path. -/
def ensure_template_on_node (nextid : Nat) (original_vmid : Nat)
    (source_node target_node : String) : List SyncEv :=
  [SyncEv.cloneReq ⟨source_node, original_vmid, nextid,
      "tpl-" ++ toString original_vmid ++ "-" ++ target_node, 1⟩,
   SyncEv.taskWaited "clone",
   SyncEv.convertToTemplate source_node nextid,
   SyncEv.taskWaited "template",
   SyncEv.migrateOffline source_node nextid target_node,
   SyncEv.taskWaited "migration",
   SyncEv.replicaAssigned target_node nextid]

/-! ## Group Index (src/modules/groups.py) and the stand-creation menu
(create_stands_menu in src/modules/ui_menus.py)

`create_group(group_name, stand_config, user_list, users)` loads groups.yaml,
sets `groups[group_name] = {stand_config, user_list, users, created_at}` and
saves.  `create_stands_menu` generates the group name and calls
`create_group(group_name, stand_file, user_list_file, users)` with the FULL
user list BEFORE invoking `deploy_stand_local` / `deploy_stand_distributed`
(lines 378 and 393); no per-user append follows a successful deployment. -/

structure GroupEntry where
  stand_config : String
  user_list : String
  users : List String
  created_at : String
deriving DecidableEq

def lookupGroup : List (String × GroupEntry) → String → Option GroupEntry
  | [], _ => none
  | e :: rest, n => if e.1 = n then some e.2 else lookupGroup rest n

/-- Python dict assignment `groups[group_name] = entry`. -/
def setGroup (groups : List (String × GroupEntry)) (name : String)
    (entry : GroupEntry) : List (String × GroupEntry) :=
  if (lookupGroup groups name).isSome then
    groups.map fun e => if e.1 = name then (e.1, entry) else e
  else groups ++ [(name, entry)]

/-- Function `create_group`: record the full user list under the group name. -/
def create_group (groups : List (String × GroupEntry))
    (group_name stand_config user_list : String) (users : List String)
    (created_at : String) : List (String × GroupEntry) :=
  setGroup groups group_name ⟨stand_config, user_list, users, created_at⟩

/-- The deployment phase of `create_stands_menu`: the group index write,
then one deployment attempt per user with its outcome. -/
inductive MenuEv
  | createGroupEv (name : String) (users : List String)
  | deployUserEv (user : String) (ok : Bool)
deriving DecidableEq

def create_stands_flow (name : String) (users : List String)
    (outcome : String → Bool) : List MenuEv :=
  MenuEv.createGroupEv name users ::
    users.map fun u => MenuEv.deployUserEv u (outcome u)

/-! ## Lemmas and claim theorems -/

lemma waitForTaskAux_ok_iff (poll : Nat → TaskView) :
    ∀ n k, waitForTaskAux poll n k = .ok ↔
      ∃ j, k ≤ j ∧ j < k + n ∧
        (∃ es, poll j = .stopped es ∧ strStartsWith es "OK" = true) ∧
        ∀ m, k ≤ m → m < j → poll m = .running := by
  intro n
  induction n with
  | zero =>
    intro k
    simp only [waitForTaskAux]
    constructor
    · intro h; cases h
    · rintro ⟨j, hkj, hjn, _, _⟩; omega
  | succ n ih =>
    intro k
    simp only [waitForTaskAux]
    cases hpk : poll k with
    | running =>
      rw [ih (k + 1)]
      constructor
      · rintro ⟨j, hkj, hjn, hes, hrun⟩
        refine ⟨j, by omega, by omega, hes, ?_⟩
        intro m hkm hmj
        rcases Nat.eq_or_lt_of_le hkm with rfl | hlt
        · exact hpk
        · exact hrun m hlt hmj
      · rintro ⟨j, hkj, hjn, hes, hrun⟩
        have hkj' : k + 1 ≤ j := by
          rcases Nat.eq_or_lt_of_le hkj with rfl | h
          · rcases hes with ⟨es, hes, _⟩
            rw [hpk] at hes
            cases hes
          · exact h
        exact ⟨j, hkj', by omega, hes, fun m hm hmj => hrun m (by omega) hmj⟩
    | stopped es =>
      by_cases hok : strStartsWith es "OK" = true
      · simp only [hok, if_true]
        constructor
        · intro _
          exact ⟨k, le_refl k, by omega, ⟨es, hpk, hok⟩, fun m hm hmk => by omega⟩
        · intro _; trivial
      · simp only [hok, if_false]
        constructor
        · intro h; cases h
        · rintro ⟨j, hkj, hjn, ⟨es', hes', hok'⟩, hrun⟩
          rcases Nat.eq_or_lt_of_le hkj with rfl | hlt
          · rw [hpk] at hes'
            cases hes'
            exact absurd hok' hok
          · have := hrun k (le_refl k) hlt
            rw [hpk] at this
            cases this
    | statusError =>
      constructor
      · intro h; cases h
      · rintro ⟨j, hkj, hjn, ⟨es', hes', _⟩, hrun⟩
        rcases Nat.eq_or_lt_of_le hkj with rfl | hlt
        · rw [hpk] at hes'; cases hes'
        · have := hrun k (le_refl k) hlt
          rw [hpk] at this; cases this

lemma waitForTaskAux_timeout (poll : Nat → TaskView) :
    ∀ n k, (∀ j, k ≤ j → j < k + n → poll j = .running) →
      waitForTaskAux poll n k = .timedOut := by
  intro n
  induction n with
  | zero => intro k _; rfl
  | succ n ih =>
    intro k hall
    have hk : poll k = .running := hall k (le_refl k) (by omega)
    simp only [waitForTaskAux, hk]
    exact ih (k + 1) (fun j h1 h2 => hall j (by omega) (by omega))

/-- C7 (confirmed).  The task waiter polls the oracle at the per-kind
interval and succeeds exactly when the first terminal poll inside the
timeout window carries an exit status beginning with "OK"; if every poll in
the window reports a running task, the wait fails with a timeout.  The
per-kind wrappers pass clone 2 s/1800 s, migration 5 s/1200 s,
snapshot 2 s/600 s, template 2 s/1800 s and generic 2 s/300 s. -/
theorem wait_for_task_contract (poll : Nat → TaskView) (timeout interval : Nat) :
    (wait_for_task poll timeout interval = .ok ↔
      ∃ j, j < maxPolls timeout interval ∧
        (∃ es, poll j = .stopped es ∧ strStartsWith es "OK" = true) ∧
        ∀ m, m < j → poll m = .running)
    ∧ ((∀ j, j < maxPolls timeout interval → poll j = .running) →
        wait_for_task poll timeout interval = .timedOut)
    ∧ wait_for_clone_task poll = wait_for_task poll 1800 2
    ∧ wait_for_migration_task poll = wait_for_task poll 1200 5
    ∧ wait_for_snapshot_task poll = wait_for_task poll 600 2
    ∧ wait_for_template_task poll = wait_for_task poll 1800 2
    ∧ wait_for_generic_task poll = wait_for_task poll 300 2 := by
  refine ⟨?_, ?_, rfl, rfl, rfl, rfl, rfl⟩
  · rw [wait_for_task, waitForTaskAux_ok_iff]
    constructor
    · rintro ⟨j, _, hj, hes, hrun⟩
      exact ⟨j, by omega, hes, fun m hm => hrun m (Nat.zero_le m) hm⟩
    · rintro ⟨j, hj, hes, hrun⟩
      exact ⟨j, Nat.zero_le j, by omega, hes, fun m _ hm => hrun m hm⟩
  · intro hall
    exact waitForTaskAux_timeout poll _ 0 (fun j _ h2 => hall j (by omega))

/-- Witness for C7 at concrete inputs: a clone task that stops with
"OK" at the third poll is classified as success, and a task that never
stops times out under the generic 300 s/2 s parameters. -/
theorem wait_for_task_contract_witness :
    (∀ j, j < maxPolls 300 2 → (fun _ => TaskView.running) j = TaskView.running)
    ∧ wait_for_task (fun _ => TaskView.running) 300 2 = .timedOut := by
  refine ⟨fun j _ => rfl, ?_⟩
  exact (wait_for_task_contract (fun _ => TaskView.running) 300 2).2.1
    (fun j _ => rfl)

lemma filter_imp_length_le (p q : Nat → Bool) (h : ∀ a, p a = true → q a = true) :
    ∀ l : List Nat, (l.filter p).length ≤ (l.filter q).length := by
  intro l
  induction l with
  | nil => simp
  | cons a l ih =>
    by_cases hpa : p a = true
    · have hqa : q a = true := h a hpa
      simp [List.filter, hpa, hqa]
      omega
    · have hpa' : p a = false := by
        cases hp : p a
        · rfl
        · exact absurd hp hpa
      cases hqa : q a
      · simp [List.filter, hpa', hqa]; exact ih
      · simp [List.filter, hpa', hqa]; omega

lemma filter_le_strict (l : List Nat) (n : Nat) (hn : n ∈ l) :
    (l.filter fun m => decide (n + 1 ≤ m)).length <
      (l.filter fun m => decide (n ≤ m)).length := by
  induction l with
  | nil => cases hn
  | cons a l ih =>
    rcases List.mem_cons.mp hn with rfl | hmem
    · have h1 : decide (n + 1 ≤ n) = false := by simp
      have h2 : decide (n ≤ n) = true := by simp
      simp only [List.filter, h1, h2, List.length_cons]
      have := filter_imp_length_le (fun m => decide (n + 1 ≤ m))
        (fun m => decide (n ≤ m)) (by intro a ha; simp at ha ⊢; omega) l
      omega
    · have hlt := ih hmem
      by_cases ha : n + 1 ≤ a
      · have h1 : decide (n + 1 ≤ a) = true := by simp [ha]
        have h2 : decide (n ≤ a) = true := by simp; omega
        simp only [List.filter, h1, h2, List.length_cons]
        omega
      · have h1 : decide (n + 1 ≤ a) = false := by simp; omega
        cases h2 : decide (n ≤ a)
        · simp only [List.filter, h1, h2]
          exact hlt
        · simp only [List.filter, h1, h2, List.length_cons]
          omega

lemma firstFreeFrom_le (taken : List Nat) :
    ∀ fuel n, n ≤ firstFreeFrom taken fuel n := by
  intro fuel
  induction fuel with
  | zero => intro n; simp [firstFreeFrom]
  | succ fuel ih =>
    intro n
    simp only [firstFreeFrom]
    by_cases h : n ∈ taken
    · simp only [h, if_true]
      exact le_trans (by omega) (ih (n + 1))
    · simp [h]

lemma firstFreeFrom_not_mem (taken : List Nat) :
    ∀ fuel n, (taken.filter fun m => decide (n ≤ m)).length < fuel →
      firstFreeFrom taken fuel n ∉ taken := by
  intro fuel
  induction fuel with
  | zero => intro n h; omega
  | succ fuel ih =>
    intro n hcount
    simp only [firstFreeFrom]
    by_cases h : n ∈ taken
    · simp only [h, if_true]
      exact ih (n + 1) (by have := filter_le_strict taken n h; omega)
    · simp [h]

lemma get_next_bridge_number_ge (ifaces : List String) :
    1000 ≤ get_next_bridge_number ifaces :=
  firstFreeFrom_le (vmbrNumbers ifaces) _ 1000

lemma get_next_bridge_number_not_mem (ifaces : List String) :
    get_next_bridge_number ifaces ∉ vmbrNumbers ifaces := by
  apply firstFreeFrom_not_mem
  calc ((vmbrNumbers ifaces).filter fun m => decide (1000 ≤ m)).length
      ≤ (vmbrNumbers ifaces).length := List.length_filter_le _ _
    _ < (vmbrNumbers ifaces).length + 1 := by omega

lemma updateAlias_length (cfgs : List (String × BridgeConfig)) (a : String)
    (f : BridgeConfig → BridgeConfig) :
    (updateAlias cfgs a f).length = cfgs.length := by
  simp [updateAlias]

lemma updateAlias_planNums (cfgs : List (String × BridgeConfig)) (a : String)
    (f : BridgeConfig → BridgeConfig) (hf : ∀ c, (f c).vmbr_num = c.vmbr_num) :
    planNums (updateAlias cfgs a f) = planNums cfgs := by
  induction cfgs with
  | nil => rfl
  | cons e rest ih =>
    have hh : (if e.1 = a then (e.1, f e.2) else e).2.vmbr_num = e.2.vmbr_num := by
      by_cases he : e.1 = a
      · simp [he, hf]
      · simp [he]
    simp only [updateAlias, planNums, List.map_cons] at ih ⊢
    rw [hh, ih]

lemma planNums_append (cfgs : List (String × BridgeConfig))
    (e : String × BridgeConfig) :
    planNums (cfgs ++ [e]) = planNums cfgs ++ [e.2.vmbr_num] := by
  simp [planNums]

lemma updateAlias_planNums_vlan (cfgs : List (String × BridgeConfig))
    (a : String) (g : BridgeConfig → List Nat) :
    planNums (updateAlias cfgs a fun c =>
      { vlan_aware := true, vmbr_num := c.vmbr_num, vlans := g c }) =
      planNums cfgs :=
  updateAlias_planNums _ _ _ fun _ => rfl

lemma planStep_inv (start : Nat) (st : PlanState) (bridge : String)
    (h : PlanInv start st) : PlanInv start (planStep st bridge) := by
  obtain ⟨hnext, hnums⟩ := h
  unfold planStep
  by_cases hstatic : strStartsWith bridge "**" = true
  · simpa [hstatic] using ⟨hnext, hnums⟩
  · rw [if_neg hstatic]
    by_cases hdot : strContainsChar bridge '.' = true
    · rw [if_pos hdot]
      cases hlook : lookupAlias st.cfgs ((strSplitOn bridge ".").headI) with
      | none =>
        simp only [hlook]
        constructor
        · simp only [List.length_append, List.length_singleton, hnext]
          omega
        · rw [planNums_append, hnums, hnext]
          simp [List.range'_concat, List.length_append]
      | some c =>
        simp only [hlook]
        constructor
        · dsimp only
          rw [updateAlias_length]
          exact hnext
        · dsimp only
          rw [updateAlias_length, updateAlias_planNums_vlan]
          exact hnums
    · rw [if_neg hdot]
      cases hlook : lookupAlias st.cfgs bridge with
      | none =>
        simp only [hlook]
        constructor
        · simp only [List.length_append, List.length_singleton, hnext]
          omega
        · rw [planNums_append, hnums, hnext]
          simp [List.range'_concat, List.length_append]
      | some c =>
        simp only [hlook]
        exact ⟨hnext, hnums⟩

lemma foldl_planStep_inv (start : Nat) :
    ∀ (l : List String) (st : PlanState), PlanInv start st →
      PlanInv start (l.foldl planStep st) := by
  intro l
  induction l with
  | nil => intro st h; exact h
  | cons b rest ih =>
    intro st h
    exact ih (planStep st b) (planStep_inv start st b h)

lemma create_bridges_nums (stand : Stand) (ifaces : List String) :
    planNums (create_bridges stand ifaces) =
      List.range' (get_next_bridge_number ifaces)
        (create_bridges stand ifaces).length := by
  have h := foldl_planStep_inv (get_next_bridge_number ifaces) (standTokens stand)
    { cfgs := [], next := get_next_bridge_number ifaces } ⟨by simp, by simp [planNums]⟩
  exact h.2

/-- C2 (corrected, amended form).  Every allocated bridge number is at least
1000; the numbers of a plan are consecutive from
`get_next_bridge_number` and therefore pairwise distinct (no two aliases
share a number); and the scan start — the number given to the first
allocated alias — is not among the vmbr numbers present in the node's
interface list at plan time.  Unlike the original claim, numbers after the
first are not rechecked against the interface list (see the
counterexample), and no upper bound 1999 is enforced anywhere: a plan
starting near the top of the range simply keeps counting upward. -/
theorem create_bridges_allocation (stand : Stand) (ifaces : List String) :
    (∀ e ∈ create_bridges stand ifaces, 1000 ≤ e.2.vmbr_num)
    ∧ (planNums (create_bridges stand ifaces)).Nodup
    ∧ planNums (create_bridges stand ifaces) =
        List.range' (get_next_bridge_number ifaces)
          (create_bridges stand ifaces).length
    ∧ get_next_bridge_number ifaces ∉ vmbrNumbers ifaces := by
  have hnums := create_bridges_nums stand ifaces
  refine ⟨?_, ?_, hnums, get_next_bridge_number_not_mem ifaces⟩
  · intro e he
    have hmem : e.2.vmbr_num ∈ planNums (create_bridges stand ifaces) :=
      List.mem_map.mpr ⟨e, he, rfl⟩
    rw [hnums] at hmem
    have hge := (List.mem_range'_1.mp hmem).1
    have := get_next_bridge_number_ge ifaces
    omega
  · rw [hnums]
    exact List.nodup_range' _ _

/-- Witness for C2 at a concrete input: in the plan for a one-machine stand
with aliases "a" and "b" on a node exposing vmbr0, every allocated number is
at least 1000. -/
theorem create_bridges_allocation_witness :
    ("a", (⟨false, 1000, []⟩ : BridgeConfig)) ∈
        create_bridges ⟨[⟨"m1", "linux", 100, "pve1", [⟨"a"⟩, ⟨"b"⟩]⟩]⟩ ["vmbr0"]
    ∧ 1000 ≤ (1000 : Nat) := by
  constructor
  · decide
  · exact (create_bridges_allocation
      ⟨[⟨"m1", "linux", 100, "pve1", [⟨"a"⟩, ⟨"b"⟩]⟩]⟩ ["vmbr0"]).1
      ("a", ⟨false, 1000, []⟩) (by decide)

/-- C2 counterexample.  On a node whose interface list contains vmbr1000 and
vmbr1002 (1001 free), a stand with two aliases plans "a" to vmbr1001 and
"b" to vmbr1002 — but 1002 IS among the vmbr numbers of the node's interface
list at plan time, refuting the claim that every allocated number was
absent from the node's list. -/
theorem create_bridges_allocation_counterexample :
    ((create_bridges ⟨[⟨"m1", "linux", 100, "pve1", [⟨"a"⟩, ⟨"b"⟩]⟩]⟩
        ["vmbr0", "vmbr1000", "vmbr1002"]).map fun e => (e.1, e.2.vmbr_num)) =
      [("a", 1001), ("b", 1002)]
    ∧ 1002 ∈ vmbrNumbers ["vmbr0", "vmbr1000", "vmbr1002"] := by
  constructor
  · decide
  · decide

lemma lookupAlias_append (cfgs : List (String × BridgeConfig))
    (e : String × BridgeConfig) (a : String) :
    lookupAlias (cfgs ++ [e]) a =
      match lookupAlias cfgs a with
      | some c => some c
      | none => if e.1 = a then some e.2 else none := by
  induction cfgs with
  | nil => rfl
  | cons x rest ih =>
    by_cases hx : x.1 = a
    · simp [lookupAlias, hx]
    · simp only [List.cons_append, lookupAlias, if_neg hx]
      exact ih

lemma lookupAlias_updateAlias (cfgs : List (String × BridgeConfig))
    (a b : String) (f : BridgeConfig → BridgeConfig) :
    lookupAlias (updateAlias cfgs a f) b =
      if b = a then (lookupAlias cfgs b).map f else lookupAlias cfgs b := by
  induction cfgs with
  | nil => by_cases hb : b = a <;> simp [updateAlias, lookupAlias, hb]
  | cons x rest ih =>
    by_cases hx : x.1 = a <;> by_cases hb : b = a <;>
      by_cases hxb : x.1 = b <;>
      simp_all [updateAlias, lookupAlias]

/-- Processing a VLAN-suffixed token on alias `a` leaves the plan with a
VLAN-aware entry for `a`, whether the alias was new or already present. -/
lemma planStep_vlanTok (st : PlanState) (a t : String)
    (ht : vlanTokFor a t = true) :
    ∃ c, lookupAlias (planStep st t).cfgs a = some c ∧ c.vlan_aware = true := by
  simp only [vlanTokFor, Bool.and_eq_true, Bool.not_eq_true',
    decide_eq_true_eq] at ht
  obtain ⟨⟨hns, hdot⟩, hhead⟩ := ht
  unfold planStep
  rw [if_neg (by simp [hns]), if_pos hdot, hhead]
  cases hlook : lookupAlias st.cfgs a with
  | none =>
    simp only [hlook]
    refine ⟨⟨true, st.next, [(strToNat? ((strSplitOn t ".").getD 1 "")).getD 0]⟩,
      ?_, rfl⟩
    rw [lookupAlias_append, hlook]
    exact if_pos rfl
  | some c =>
    simp only [hlook]
    refine ⟨⟨true, c.vmbr_num,
      List.insert ((strToNat? ((strSplitOn t ".").getD 1 "")).getD 0) c.vlans⟩,
      ?_, rfl⟩
    rw [lookupAlias_updateAlias, if_pos rfl, hlook]
    rfl

/-- Once an alias is present and VLAN-aware, no further token removes it or
clears the flag. -/
lemma planStep_preserves_aware (st : PlanState) (a t : String) (c : BridgeConfig)
    (hc : lookupAlias st.cfgs a = some c) (haw : c.vlan_aware = true) :
    ∃ c', lookupAlias (planStep st t).cfgs a = some c' ∧ c'.vlan_aware = true := by
  unfold planStep
  by_cases hstatic : strStartsWith t "**" = true
  · rw [if_pos hstatic]; exact ⟨c, hc, haw⟩
  · rw [if_neg hstatic]
    by_cases hdot : strContainsChar t '.' = true
    · rw [if_pos hdot]
      cases hlook : lookupAlias st.cfgs ((strSplitOn t ".").headI) with
      | none =>
        simp only [hlook]
        refine ⟨c, ?_, haw⟩
        rw [lookupAlias_append, hc]
      | some d =>
        simp only [hlook]
        rw [lookupAlias_updateAlias]
        by_cases ha : a = (strSplitOn t ".").headI
        · rw [if_pos ha, hc]
          exact ⟨_, rfl, rfl⟩
        · rw [if_neg ha]
          exact ⟨c, hc, haw⟩
    · rw [if_neg hdot]
      cases hlook : lookupAlias st.cfgs t with
      | none =>
        simp only [hlook]
        refine ⟨c, ?_, haw⟩
        rw [lookupAlias_append, hc]
      | some d =>
        simp only [hlook]
        exact ⟨c, hc, haw⟩

lemma foldl_preserves_aware (l : List String) :
    ∀ (st : PlanState) (a : String) (c : BridgeConfig),
      lookupAlias st.cfgs a = some c → c.vlan_aware = true →
      ∃ c', lookupAlias ((l.foldl planStep st).cfgs) a = some c' ∧
        c'.vlan_aware = true := by
  induction l with
  | nil => intro st a c hc haw; exact ⟨c, hc, haw⟩
  | cons t rest ih =>
    intro st a c hc haw
    obtain ⟨c', hc', haw'⟩ := planStep_preserves_aware st a t c hc haw
    exact ih (planStep st t) a c' hc' haw'

lemma foldl_vlan_aware (l : List String) :
    ∀ (st : PlanState) (a : String), (∃ t ∈ l, vlanTokFor a t = true) →
      ∃ c, lookupAlias ((l.foldl planStep st).cfgs) a = some c ∧
        c.vlan_aware = true := by
  induction l with
  | nil => rintro st a ⟨t, ht, _⟩; cases ht
  | cons t rest ih =>
    rintro st a ⟨u, hu, hvl⟩
    rcases List.mem_cons.mp hu with rfl | hmem
    · obtain ⟨c, hc, haw⟩ := planStep_vlanTok st a u hvl
      exact foldl_preserves_aware rest (planStep st u) a c hc haw
    · exact ih (planStep st t) a ⟨u, hmem, hvl⟩

/-- C9 (confirmed).  If any NIC binding of the stand is a symbolic binding
on alias `a` with a VLAN suffix — in any position, before or after untagged
sightings of `a` — then the plan produced by `create_bridges` maps `a` to a
bridge marked VLAN-aware. -/
theorem create_bridges_vlan_aware (stand : Stand) (ifaces : List String)
    (a : String) (h : ∃ t ∈ standTokens stand, vlanTokFor a t = true) :
    ∃ c, lookupAlias (create_bridges stand ifaces) a = some c ∧
      c.vlan_aware = true :=
  foldl_vlan_aware (standTokens stand) _ a h

/-- Witness for C9 at the spec's S2 scenario: machine with NICs
[lan, lan.200] (untagged sighting first); the plan still marks the bridge
of "lan" VLAN-aware. -/
theorem create_bridges_vlan_aware_witness :
    (∃ t ∈ standTokens ⟨[⟨"m1", "linux", 100, "pve1", [⟨"lan"⟩, ⟨"lan.200"⟩]⟩]⟩,
      vlanTokFor "lan" t = true)
    ∧ ∃ c, lookupAlias (create_bridges
        ⟨[⟨"m1", "linux", 100, "pve1", [⟨"lan"⟩, ⟨"lan.200"⟩]⟩]⟩ ["vmbr0"])
        "lan" = some c ∧ c.vlan_aware = true :=
  ⟨by decide, create_bridges_vlan_aware
    ⟨[⟨"m1", "linux", 100, "pve1", [⟨"lan"⟩, ⟨"lan.200"⟩]⟩]⟩ ["vmbr0"] "lan"
    (by decide)⟩

lemma configureAux_eco (plan : List (String × BridgeConfig)) (rnd : Nat → Nat) :
    ∀ (rest : List String) (i : Nat),
      (∀ b ∈ rest, resolveBridge plan b ≠ none) →
      ∃ l, configureAux plan "ecorouter" rnd i rest = some l ∧
        l.length = rest.length ∧
        ∀ j, j < rest.length → ∃ r,
          resolveBridge plan (rest.getD j "") = some r ∧
          l.getD j ("", "") = ("net" ++ toString (i + j),
            ecoNic (i + j) r (rest.getD j "") (macFor rnd (i + j))) := by
  intro rest
  induction rest with
  | nil =>
    intro i _
    exact ⟨[], rfl, rfl, fun j hj => absurd hj (by simp)⟩
  | cons b bs ih =>
    intro i H
    have hb : resolveBridge plan b ≠ none := H b (List.mem_cons_self b bs)
    obtain ⟨r, hr⟩ : ∃ r, resolveBridge plan b = some r := by
      cases hrb : resolveBridge plan b
      · exact absurd hrb hb
      · exact ⟨_, rfl⟩
    obtain ⟨l, hl, hlen, hpt⟩ :=
      ih (i + 1) (fun x hx => H x (List.mem_cons_of_mem b hx))
    have hw : wire_nic plan "ecorouter" i b (macFor rnd i) =
        some (ecoNic i r b (macFor rnd i)) := by
      simp [wire_nic, hr]
    refine ⟨("net" ++ toString i, ecoNic i r b (macFor rnd i)) :: l, ?_,
      by simp [hlen], ?_⟩
    · show configureAux plan "ecorouter" rnd i (b :: bs) = _
      rw [configureAux, hw, hl]
      rfl
    · intro j hj
      cases j with
      | zero =>
        refine ⟨r, by simpa using hr, ?_⟩
        simp
      | succ j' =>
        have hj' : j' < bs.length := by simpa using hj
        obtain ⟨r', hr', he'⟩ := hpt j' hj'
        have harith : i + (j' + 1) = (i + 1) + j' := by omega
        refine ⟨r', by simpa using hr', ?_⟩
        rw [List.getD_cons_succ, harith]
        exact he'

/-- C3 (confirmed).  For an ecorouter machine the stand builder prepends the
management NIC `**vmbr0` (stands.py / add_vm_to_stand.py), so the wired
configuration sets net0 to the reserved management interface
`model=vmxnet3,bridge=vmbr0,link_down=1,macaddr=<generated>` and maps the
machine's declared NIC bindings, in declared order, to net1, net2, ...,
each wired with model vmxnet3, its resolved bridge, its VLAN tag when
suffixed, and a generated MAC, without link_down. -/
theorem configure_vm_network_ecorouter (plan : List (String × BridgeConfig))
    (declared : List String) (rnd : Nat → Nat)
    (H : ∀ b ∈ declared, resolveBridge plan b ≠ none) :
    ∃ l, configure_vm_network plan "ecorouter"
        (NIC.mk "**vmbr0" :: declared.map NIC.mk) rnd =
        some (("net0",
          "model=vmxnet3,bridge=vmbr0,link_down=1,macaddr=" ++ macFor rnd 0) :: l)
      ∧ l.length = declared.length
      ∧ ∀ j, j < declared.length → ∃ r,
          resolveBridge plan (declared.getD j "") = some r ∧
          l.getD j ("", "") = ("net" ++ toString (j + 1),
            ecoNic (j + 1) r (declared.getD j "") (macFor rnd (j + 1))) := by
  obtain ⟨l, hl, hlen, hpt⟩ := configureAux_eco plan rnd declared 1 H
  have hmap : (NIC.mk "**vmbr0" :: declared.map NIC.mk).map NIC.bridge =
      "**vmbr0" :: declared := by
    simp only [List.map_cons, List.map_map]
    exact congrArg (List.cons "**vmbr0") (List.map_id declared)
  have hw0 : wire_nic plan "ecorouter" 0 "**vmbr0" (macFor rnd 0) =
      some ("model=vmxnet3,bridge=vmbr0,link_down=1,macaddr=" ++ macFor rnd 0) :=
    rfl
  refine ⟨l, ?_, hlen, ?_⟩
  · rw [configure_vm_network, hmap, configureAux, hw0, hl]
    rfl
  · intro j hj
    obtain ⟨r, hr, he⟩ := hpt j hj
    have harith : 1 + j = j + 1 := by omega
    rw [harith] at he
    exact ⟨r, hr, he⟩

/-- Witness for C3 at the spec's S3 scenario: ecorouter machine with
declared NICs [lan, wan.10] against a plan mapping lan to vmbr1000 and wan
to a VLAN-aware vmbr1001, with the randomness oracle fixed at 0. -/
theorem configure_vm_network_ecorouter_witness :
    (∀ b ∈ ["lan", "wan.10"],
      resolveBridge [("lan", ⟨false, 1000, []⟩), ("wan", ⟨true, 1001, [10]⟩)] b
        ≠ none)
    ∧ ∃ l, configure_vm_network
        [("lan", ⟨false, 1000, []⟩), ("wan", ⟨true, 1001, [10]⟩)] "ecorouter"
        (NIC.mk "**vmbr0" :: (["lan", "wan.10"].map NIC.mk)) (fun _ => 0) =
        some (("net0",
          "model=vmxnet3,bridge=vmbr0,link_down=1,macaddr=" ++
            macFor (fun _ => 0) 0) :: l)
      ∧ l.length = (["lan", "wan.10"] : List String).length
      ∧ ∀ j, j < (["lan", "wan.10"] : List String).length → ∃ r,
          resolveBridge [("lan", ⟨false, 1000, []⟩), ("wan", ⟨true, 1001, [10]⟩)]
            (["lan", "wan.10"].getD j "") = some r ∧
          l.getD j ("", "") = ("net" ++ toString (j + 1),
            ecoNic (j + 1) r (["lan", "wan.10"].getD j "")
              (macFor (fun _ => 0) (j + 1))) :=
  ⟨by decide, configure_vm_network_ecorouter
    [("lan", ⟨false, 1000, []⟩), ("wan", ⟨true, 1001, [10]⟩)]
    ["lan", "wan.10"] (fun _ => 0) (by decide)⟩

lemma sublist_append_right_of_sublist {α : Type} {l r : List α} (x : List α)
    (h : l.Sublist r) : l.Sublist (x ++ r) :=
  h.trans (List.sublist_append_right x r)

lemma pair_sublist_append {α : Type} {a b : α} {A B : List α}
    (ha : a ∈ A) (hb : b ∈ B) : [a, b].Sublist (A ++ B) := by
  have h1 : [a].Sublist A := List.singleton_sublist.mpr ha
  have h2 : [b].Sublist B := List.singleton_sublist.mpr hb
  exact h1.append h2

lemma cloneStart_mem_deployMachinesEvents (tg : Bool) :
    ∀ (ms : List Nat) (m : Nat), m ∈ ms →
      DeployEv.cloneStart m ∈ deployMachinesEvents tg ms := by
  intro ms
  induction ms with
  | nil => intro m hm; cases hm
  | cons x rest ih =>
    intro m hm
    rcases List.mem_cons.mp hm with rfl | hmem
    · exact List.mem_append_left _ (by cases tg <;> simp [deployMachineEvents])
    · exact List.mem_append_right _ (ih m hmem)

lemma snapWait_mem_deployMachineEvents (tg : Bool) (m : Nat) :
    DeployEv.snapWait m ∈ deployMachineEvents tg m := by
  cases tg <;> simp [deployMachineEvents]

/-- C4 (corrected, amended form).  In declared machine order: the clone wait
happens between clone start and NIC wiring ONLY when an explicit target node
was given (the distributed path); on the no-target local path no clone wait
occurs at all.  On both paths NIC wiring precedes the `start` snapshot, the
snapshot is waited before the machine's block ends, and the snapshot wait of
a machine precedes every later machine's clone start. -/
theorem deploy_machine_ordering (tg : Bool) (ms : List Nat) :
    (∀ m ∈ ms, [DeployEv.nicConfig m, DeployEv.snapCreate m,
        DeployEv.snapWait m].Sublist (deployMachinesEvents tg ms))
    ∧ (tg = true → ∀ m ∈ ms, [DeployEv.cloneStart m, DeployEv.cloneWait m,
        DeployEv.nicConfig m].Sublist (deployMachinesEvents tg ms))
    ∧ (∀ xs m ys m', ms = xs ++ m :: ys → m' ∈ ys →
        [DeployEv.snapWait m, DeployEv.cloneStart m'].Sublist
          (deployMachinesEvents tg ms))
    ∧ (tg = false → ∀ m, DeployEv.cloneWait m ∉ deployMachinesEvents tg ms) := by
  refine ⟨?_, ?_, ?_, ?_⟩
  · intro m hm
    induction ms with
    | nil => cases hm
    | cons x rest ih =>
      rcases List.mem_cons.mp hm with rfl | hmem
      · have h1 : [DeployEv.nicConfig m, DeployEv.snapCreate m,
            DeployEv.snapWait m].Sublist
            [DeployEv.nicConfig m, DeployEv.aclVM m, DeployEv.snapCreate m,
              DeployEv.snapWait m] :=
          List.Sublist.cons₂ _ (List.Sublist.cons _ (List.Sublist.cons₂ _
            (List.Sublist.cons₂ _ List.Sublist.slnil)))
        exact ((h1.trans (List.sublist_append_right _ _)).trans
          (List.sublist_append_left _ _))
      · exact sublist_append_right_of_sublist _ (ih hmem)
  · intro htg m hm
    subst htg
    induction ms with
    | nil => cases hm
    | cons x rest ih =>
      rcases List.mem_cons.mp hm with rfl | hmem
      · have h1 : [DeployEv.cloneStart m, DeployEv.cloneWait m,
            DeployEv.nicConfig m].Sublist (deployMachineEvents true m) := by
          simp only [deployMachineEvents, if_pos rfl]
          exact List.Sublist.cons₂ _ (List.Sublist.cons₂ _
            (List.Sublist.cons₂ _ (List.nil_sublist _)))
        exact h1.trans (List.sublist_append_left _ _)
      · exact sublist_append_right_of_sublist _ (ih hmem)
  · intro xs m ys m' hsplit hm'
    subst hsplit
    induction xs with
    | nil =>
      simp only [List.nil_append, deployMachinesEvents]
      exact pair_sublist_append (snapWait_mem_deployMachineEvents tg m)
        (cloneStart_mem_deployMachinesEvents tg ys m' hm')
    | cons x xs ih =>
      simp only [List.cons_append, deployMachinesEvents]
      exact sublist_append_right_of_sublist _ ih
  · intro htg m
    subst htg
    induction ms with
    | nil => simp [deployMachinesEvents]
    | cons x rest ih =>
      simp only [deployMachinesEvents, List.mem_append]
      rintro (hin | hin)
      · simp [deployMachineEvents] at hin
      · exact ih hin

/-- Witness for C4's amended ordering at a concrete two-machine run with a
target node given: machine 0's clone wait precedes its NIC wiring, and its
snapshot wait precedes machine 1's clone start. -/
theorem deploy_machine_ordering_witness :
    ((0 : Nat) ∈ [0, 1] ∧
      [DeployEv.cloneStart 0, DeployEv.cloneWait 0, DeployEv.nicConfig 0].Sublist
        (deployMachinesEvents true [0, 1]))
    ∧ ([0, 1] = ([] : List Nat) ++ 0 :: [1] ∧ (1 : Nat) ∈ [1] ∧
      [DeployEv.snapWait 0, DeployEv.cloneStart 1].Sublist
        (deployMachinesEvents true [0, 1])) :=
  ⟨⟨by decide, (deploy_machine_ordering true [0, 1]).2.1 rfl 0 (by decide)⟩,
   ⟨rfl, by decide, (deploy_machine_ordering true [0, 1]).2.2.1 [] 0 [1] 1 rfl
     (by decide)⟩⟩

/-- C4 counterexample.  On the local path (no target node), the whole trace
of a one-machine deployment contains no clone wait at all: NIC wiring starts
without the clone task having been waited to a terminal state, refuting the
claim for the path where no target node is given. -/
theorem deploy_machine_ordering_counterexample :
    deployMachinesEvents false [0] =
      [DeployEv.cloneStart 0, DeployEv.nicConfig 0, DeployEv.aclVM 0,
        DeployEv.snapCreate 0, DeployEv.snapWait 0]
    ∧ DeployEv.cloneWait 0 ∉ deployMachinesEvents false [0] := by
  constructor
  · decide
  · decide

lemma mem_flatten_of_getD {α : Type} :
    ∀ (L : List (List α)) (j : Nat) (y : α), y ∈ L.getD j [] → y ∈ L.flatten := by
  intro L
  induction L with
  | nil => intro j y hy; simp at hy
  | cons p ps ih =>
    intro j y hy
    cases j with
    | zero =>
      simp only [List.getD_cons_zero] at hy
      exact List.mem_append_left _ hy
    | succ j' =>
      simp only [List.getD_cons_succ] at hy
      exact List.mem_append_right _ (ih j' y hy)

lemma pair_sublist_flatten {α : Type} :
    ∀ (parts : List (List α)) (i j : Nat) (x y : α), i < j →
      x ∈ parts.getD i [] → y ∈ parts.getD j [] →
      [x, y].Sublist parts.flatten := by
  intro parts
  induction parts with
  | nil => intro i j x y _ hx _; simp at hx
  | cons p ps ih =>
    intro i j x y hij hx hy
    cases i with
    | zero =>
      cases j with
      | zero => omega
      | succ j' =>
        simp only [List.getD_cons_zero] at hx
        simp only [List.getD_cons_succ] at hy
        exact pair_sublist_append hx (mem_flatten_of_getD ps j' y hy)
    | succ i' =>
      cases j with
      | zero => omega
      | succ j' =>
        simp only [List.getD_cons_succ] at hx hy
        exact sublist_append_right_of_sublist p (ih i' j' x y (by omega) hx hy)

/-- Every event of the main-path trace lives in the segment of its phase. -/
lemma mem_tdParts_phase (env : TeardownEnv) (ms : List Member) :
    ∀ x ∈ (tdParts env ms).flatten, x ∈ (tdParts env ms).getD (phase x) [] := by
  intro x hx
  rcases List.mem_flatten.mp hx with ⟨l, hl, hxl⟩
  simp only [tdParts, List.mem_cons, List.not_mem_nil, or_false] at hl
  rcases hl with rfl | rfl | rfl | rfl | rfl | rfl
  · rcases List.mem_map.mp hxl with ⟨m, _, rfl⟩
    exact hxl
  · rcases List.mem_map.mp hxl with ⟨p, _, rfl⟩
    exact hxl
  · rcases List.mem_map.mp hxl with ⟨n, _, rfl⟩
    exact hxl
  · rcases List.mem_map.mp hxl with ⟨m, _, rfl⟩
    exact hxl
  · rcases List.mem_cons.mp hxl with rfl | h
    · exact hxl
    · simp at h
  · rcases List.mem_cons.mp hxl with rfl | h
    · exact hxl
    · simp at h

/-- C1 (corrected, amended form).  On every teardown run that reaches the
deletion phase (user and pool exist, the pool has members on known nodes,
and the stop phase did not abort), the mutating calls are ordered by phase:
stop running VMs, then DELETE THE COLLECTED BRIDGES, then reload the network
on the affected nodes, then delete the member VMs, then delete the pool,
then delete the user.  In particular every bridge deletion precedes every VM
deletion — the reverse of the originally claimed order (the module docstring
documents this order; the spec's rationale has it backwards). -/
theorem teardown_phase_order (env : TeardownEnv) (ms : List Member)
    (hu : env.userExists = true) (hp : env.poolExists = true)
    (hm : env.members = some ms) (hne : ms.isEmpty = false)
    (hnodes : (tdNodesInUse ms).isEmpty = false)
    (hstop : ((tdRunning env ms).all fun m => env.stopOk m.vmid) = true) :
    (delete_user_stand_logic env).2 = (tdParts env ms).flatten
    ∧ ∀ x y, x ∈ (delete_user_stand_logic env).2 →
        y ∈ (delete_user_stand_logic env).2 → phase x < phase y →
        [x, y].Sublist (delete_user_stand_logic env).2 := by
  have htr : (delete_user_stand_logic env).2 = (tdParts env ms).flatten := by
    simp only [delete_user_stand_logic, hu, hp, hm, hne, hnodes, hstop,
      Bool.not_true, Bool.false_eq_true, if_false]
  refine ⟨htr, ?_⟩
  intro x y hx hy hxy
  rw [htr] at hx hy ⊢
  exact pair_sublist_flatten (tdParts env ms) (phase x) (phase y) x y hxy
    (mem_tdParts_phase env ms x hx) (mem_tdParts_phase env ms y hy)

/-- Witness for C1's amended ordering at a concrete teardown: one member VM
on pve1 wired to vmbr1000, not running, all deletions succeeding. -/
theorem teardown_phase_order_witness :
    ((⟨true, true, some [⟨101, "pve1"⟩],
        fun _ => [("net0", "model=virtio,bridge=vmbr1000")],
        fun _ => false, fun _ => true, fun _ => true, fun _ _ => true,
        true, true⟩ : TeardownEnv).members = some [⟨101, "pve1"⟩])
    ∧ [TeardownEv.delBridge "vmbr1000" "pve1" true,
        TeardownEv.delVM 101 true].Sublist
        (delete_user_stand_logic ⟨true, true, some [⟨101, "pve1"⟩],
          fun _ => [("net0", "model=virtio,bridge=vmbr1000")],
          fun _ => false, fun _ => true, fun _ => true, fun _ _ => true,
          true, true⟩).2 := by
  refine ⟨rfl, ?_⟩
  exact (teardown_phase_order _ [⟨101, "pve1"⟩] rfl rfl rfl rfl (by decide)
      (by decide)).2
    (TeardownEv.delBridge "vmbr1000" "pve1" true) (TeardownEv.delVM 101 true)
    (by decide) (by decide) (by decide)

/-- C1 counterexample.  For the same concrete teardown the trace is
exactly: delete bridge vmbr1000, reload pve1, delete VM 101, delete pool,
delete user — the bridge is deleted BEFORE the member VM is deleted (and
before the network reload), refuting the claimed stop → delete VMs →
delete bridges → reload order. -/
theorem teardown_phase_order_counterexample :
    delete_user_stand_logic ⟨true, true, some [⟨101, "pve1"⟩],
        fun _ => [("net0", "model=virtio,bridge=vmbr1000")],
        fun _ => false, fun _ => true, fun _ => true, fun _ _ => true,
        true, true⟩ =
      (true, [TeardownEv.delBridge "vmbr1000" "pve1" true,
        TeardownEv.reloadNet "pve1", TeardownEv.delVM 101 true,
        TeardownEv.delPool true, TeardownEv.delUser true])
    ∧ ¬ [TeardownEv.delVM 101 true,
          TeardownEv.delBridge "vmbr1000" "pve1" true].Sublist
        [TeardownEv.delBridge "vmbr1000" "pve1" true,
          TeardownEv.reloadNet "pve1", TeardownEv.delVM 101 true,
          TeardownEv.delPool true, TeardownEv.delUser true] := by
  constructor
  · decide
  · decide

/-- C10 (corrected, amended form).  For a teardown whose user and pool both
exist and whose pool member list is fetched and NONEMPTY, the run reports
success exactly when some member VM deletion succeeded, or the pool
deletion succeeded, or the user deletion succeeded — including runs aborted
at the stop phase (which report failure and delete nothing).  The
restriction to a nonempty pool is forced by the counterexample: an empty
pool reports success unconditionally. -/
theorem teardown_success_iff (env : TeardownEnv) (ms : List Member)
    (hu : env.userExists = true) (hp : env.poolExists = true)
    (hm : env.members = some ms) (hne : ms.isEmpty = false) :
    ((delete_user_stand_logic env).1 = true ↔
      (∃ v, TeardownEv.delVM v true ∈ (delete_user_stand_logic env).2)
      ∨ TeardownEv.delPool true ∈ (delete_user_stand_logic env).2
      ∨ TeardownEv.delUser true ∈ (delete_user_stand_logic env).2) := by
  by_cases hnodes : (tdNodesInUse ms).isEmpty = true
  · have : delete_user_stand_logic env = (false, []) := by
      simp [delete_user_stand_logic, hu, hp, hm, hne, hnodes]
    rw [this]
    simp
  · have hnodes' : (tdNodesInUse ms).isEmpty = false :=
      Bool.not_eq_true _ ▸ Bool.eq_false_iff.mpr hnodes
    by_cases hstop : ((tdRunning env ms).all fun m => env.stopOk m.vmid) = true
    · have htr : delete_user_stand_logic env =
          (!((tdValids ms).filter fun m => env.delVmOk m.vmid).isEmpty
             || env.delPoolOk || env.delUserOk,
           (tdParts env ms).flatten) := by
        simp [delete_user_stand_logic, hu, hp, hm, hne, hnodes', hstop]
      rw [htr]
      have hvm : (∃ v, TeardownEv.delVM v true ∈ (tdParts env ms).flatten) ↔
          ¬ ((tdValids ms).filter fun m => env.delVmOk m.vmid) = [] := by
        constructor
        · rintro ⟨v, hv⟩
          rcases List.mem_flatten.mp hv with ⟨l, hl, hxl⟩
          simp only [tdParts, List.mem_cons, List.not_mem_nil, or_false] at hl
          rcases hl with rfl | rfl | rfl | rfl | rfl | rfl
          · rcases List.mem_map.mp hxl with ⟨m, _, hme⟩; cases hme
          · rcases List.mem_map.mp hxl with ⟨p, _, hme⟩; cases hme
          · rcases List.mem_map.mp hxl with ⟨n, _, hme⟩; cases hme
          · rcases List.mem_map.mp hxl with ⟨m, hmm, hme⟩
            intro hemp
            injection hme with h1 h2
            have : m ∈ (tdValids ms).filter fun m => env.delVmOk m.vmid :=
              List.mem_filter.mpr ⟨hmm, h2⟩
            rw [hemp] at this
            cases this
          · rcases List.mem_cons.mp hxl with hme | hme
            · cases hme
            · simp at hme
          · rcases List.mem_cons.mp hxl with hme | hme
            · cases hme
            · simp at hme
        · intro hne'
          rcases List.exists_mem_of_ne_nil _ hne' with ⟨m, hmm⟩
          have hmf := List.mem_filter.mp hmm
          refine ⟨m.vmid, ?_⟩
          apply List.mem_flatten.mpr
          refine ⟨(tdValids ms).map fun m => TeardownEv.delVM m.vmid
            (env.delVmOk m.vmid), by simp [tdParts], ?_⟩
          have : TeardownEv.delVM m.vmid (env.delVmOk m.vmid) =
              TeardownEv.delVM m.vmid true := by rw [hmf.2]
          rw [← this]
          exact List.mem_map.mpr ⟨m, hmf.1, rfl⟩
      have hpool : (TeardownEv.delPool true ∈ (tdParts env ms).flatten) ↔
          env.delPoolOk = true := by
        constructor
        · intro hv
          rcases List.mem_flatten.mp hv with ⟨l, hl, hxl⟩
          simp only [tdParts, List.mem_cons, List.not_mem_nil, or_false] at hl
          rcases hl with rfl | rfl | rfl | rfl | rfl | rfl
          · rcases List.mem_map.mp hxl with ⟨m, _, hme⟩; cases hme
          · rcases List.mem_map.mp hxl with ⟨p, _, hme⟩; cases hme
          · rcases List.mem_map.mp hxl with ⟨n, _, hme⟩; cases hme
          · rcases List.mem_map.mp hxl with ⟨m, _, hme⟩; cases hme
          · rcases List.mem_cons.mp hxl with hme | hme
            · injection hme with h; exact h.symm
            · simp at hme
          · rcases List.mem_cons.mp hxl with hme | hme
            · cases hme
            · simp at hme
        · intro hok
          apply List.mem_flatten.mpr
          exact ⟨[TeardownEv.delPool env.delPoolOk], by simp [tdParts],
            by rw [hok]; exact List.mem_singleton.mpr rfl⟩
      have huser : (TeardownEv.delUser true ∈ (tdParts env ms).flatten) ↔
          env.delUserOk = true := by
        constructor
        · intro hv
          rcases List.mem_flatten.mp hv with ⟨l, hl, hxl⟩
          simp only [tdParts, List.mem_cons, List.not_mem_nil, or_false] at hl
          rcases hl with rfl | rfl | rfl | rfl | rfl | rfl
          · rcases List.mem_map.mp hxl with ⟨m, _, hme⟩; cases hme
          · rcases List.mem_map.mp hxl with ⟨p, _, hme⟩; cases hme
          · rcases List.mem_map.mp hxl with ⟨n, _, hme⟩; cases hme
          · rcases List.mem_map.mp hxl with ⟨m, _, hme⟩; cases hme
          · rcases List.mem_cons.mp hxl with hme | hme
            · cases hme
            · simp at hme
          · rcases List.mem_cons.mp hxl with hme | hme
            · injection hme with h; exact h.symm
            · simp at hme
        · intro hok
          apply List.mem_flatten.mpr
          exact ⟨[TeardownEv.delUser env.delUserOk], by simp [tdParts],
            by rw [hok]; exact List.mem_singleton.mpr rfl⟩
      simp only [hvm, hpool, huser, Bool.or_eq_true, Bool.not_eq_true',
        List.isEmpty_eq_false, List.isEmpty_iff]
      tauto
    · have hstop' : ((tdRunning env ms).all fun m => env.stopOk m.vmid) = false :=
        Bool.eq_false_iff.mpr hstop
      have htr : delete_user_stand_logic env = (false, tdStopEvs env ms) := by
        simp [delete_user_stand_logic, hu, hp, hm, hne, hnodes', hstop']
      rw [htr]
      simp only [Bool.false_eq_true, false_iff]
      push_neg
      refine ⟨?_, ?_, ?_⟩
      · intro v hv
        rcases List.mem_map.mp hv with ⟨m, _, hme⟩
        cases hme
      · intro hv
        rcases List.mem_map.mp hv with ⟨m, _, hme⟩
        cases hme
      · intro hv
        rcases List.mem_map.mp hv with ⟨m, _, hme⟩
        cases hme

/-- Witness for C10 at a concrete teardown where every VM deletion fails but
the pool deletion succeeds: the run is still reported as success. -/
theorem teardown_success_iff_witness :
    ((⟨true, true, some [⟨101, "pve1"⟩], fun _ => [],
        fun _ => false, fun _ => true, fun _ => false, fun _ _ => true,
        true, false⟩ : TeardownEnv).members = some [⟨101, "pve1"⟩])
    ∧ ((delete_user_stand_logic ⟨true, true, some [⟨101, "pve1"⟩], fun _ => [],
        fun _ => false, fun _ => true, fun _ => false, fun _ _ => true,
        true, false⟩).1 = true ↔
      (∃ v, TeardownEv.delVM v true ∈ (delete_user_stand_logic
        ⟨true, true, some [⟨101, "pve1"⟩], fun _ => [],
          fun _ => false, fun _ => true, fun _ => false, fun _ _ => true,
          true, false⟩).2)
      ∨ TeardownEv.delPool true ∈ (delete_user_stand_logic
        ⟨true, true, some [⟨101, "pve1"⟩], fun _ => [],
          fun _ => false, fun _ => true, fun _ => false, fun _ _ => true,
          true, false⟩).2
      ∨ TeardownEv.delUser true ∈ (delete_user_stand_logic
        ⟨true, true, some [⟨101, "pve1"⟩], fun _ => [],
          fun _ => false, fun _ => true, fun _ => false, fun _ _ => true,
          true, false⟩).2) :=
  ⟨rfl, teardown_success_iff _ [⟨101, "pve1"⟩] rfl rfl rfl rfl⟩

/-- C10 counterexample.  A teardown of a user whose user account and pool
both exist but whose pool is EMPTY reports success even though the pool
deletion and the user deletion both failed and no VM was deleted: the
claimed "success iff something succeeded" equivalence does not hold for
empty pools. -/
theorem teardown_success_iff_counterexample :
    delete_user_stand_logic ⟨true, true, some [], fun _ => [],
        fun _ => false, fun _ => true, fun _ => true, fun _ _ => true,
        false, false⟩ =
      (true, [TeardownEv.delPool false, TeardownEv.delUser false])
    ∧ ¬ ((∃ v, TeardownEv.delVM v true ∈
          [TeardownEv.delPool false, TeardownEv.delUser false])
        ∨ TeardownEv.delPool true ∈
          [TeardownEv.delPool false, TeardownEv.delUser false]
        ∨ TeardownEv.delUser true ∈
          [TeardownEv.delPool false, TeardownEv.delUser false]) := by
  refine ⟨by decide, ?_⟩
  rintro (⟨v, hv⟩ | hv | hv) <;> simp at hv

/-- C8 (confirmed).  A cluster with fewer than two nodes is refused; with at
least two nodes the trace begins with exactly one template synchronization
(and no other), has one deployment step per user, and deploys the user at
index i on nodes[i mod |nodes|]. -/
theorem deploy_stand_distributed_contract (nodes users : List String) :
    (nodes.length < 2 → deploy_stand_distributed nodes users = none)
    ∧ (2 ≤ nodes.length → ∃ tr, deploy_stand_distributed nodes users = some tr
        ∧ tr.get? 0 = some DistEv.syncTemplates
        ∧ (∀ j, tr.get? j = some DistEv.syncTemplates → j = 0)
        ∧ tr.length = users.length + 1
        ∧ ∀ i, i < users.length → tr.get? (i + 1) =
            some (DistEv.deployUser (users.getD i "")
              (nodes.getD (i % nodes.length) ""))) := by
  constructor
  · intro h
    simp [deploy_stand_distributed, h]
  · intro h
    have hlt : ¬nodes.length < 2 := by omega
    refine ⟨DistEv.syncTemplates :: (List.range users.length).map fun i =>
        DistEv.deployUser (users.getD i "") (nodes.getD (i % nodes.length) ""),
      by rw [deploy_stand_distributed, if_neg hlt], rfl, ?_, by simp, ?_⟩
    · intro j hj
      cases j with
      | zero => rfl
      | succ j' =>
        exfalso
        simp only [List.get?] at hj
        by_cases hjn : j' < users.length
        · rw [List.get?_eq_getElem?, List.getElem?_map,
            List.getElem?_range hjn] at hj
          simp at hj
        · rw [List.get?_eq_getElem?, List.getElem?_map] at hj
          rw [List.getElem?_eq_none (by simpa using hjn)] at hj
          simp at hj
    · intro i hi
      show ((List.range users.length).map _).get? i = _
      rw [List.get?_eq_getElem?, List.getElem?_map, List.getElem?_range hi]
      rfl

/-- Witness for C8 at the spec's S4 scenario: users [u1, u2, u3] on nodes
[pve1, pve2]; sync happens once up front, and the assignment is u1 to pve1,
u2 to pve2, u3 to pve1. -/
theorem deploy_stand_distributed_contract_witness :
    2 ≤ (["pve1", "pve2"] : List String).length
    ∧ ∃ tr, deploy_stand_distributed ["pve1", "pve2"] ["u1", "u2", "u3"] = some tr
        ∧ tr.get? 0 = some DistEv.syncTemplates
        ∧ (∀ j, tr.get? j = some DistEv.syncTemplates → j = 0)
        ∧ tr.length = (["u1", "u2", "u3"] : List String).length + 1
        ∧ ∀ i, i < (["u1", "u2", "u3"] : List String).length → tr.get? (i + 1) =
            some (DistEv.deployUser ((["u1", "u2", "u3"] : List String).getD i "")
              ((["pve1", "pve2"] : List String).getD
                (i % (["pve1", "pve2"] : List String).length) "")) :=
  ⟨by decide,
    (deploy_stand_distributed_contract ["pve1", "pve2"] ["u1", "u2", "u3"]).2
      (by decide)⟩

/-- C5 (corrected, amended form).  The clone request issued by the
synchronization path (`sync_templates` / `_create_template_replica`) names
the replica `tpl-<source_node>-<source_vmid>`; only the
`ensure_template_on_node` path of templates.py uses the claimed
`tpl-<source_vmid>-<target_node>`. -/
theorem replica_clone_names (nextid vmid : Nat) (node target : String) :
    (create_template_replica nextid node vmid target).get? 0 =
      some (SyncEv.cloneReq ⟨node, vmid, nextid,
        "tpl-" ++ node ++ "-" ++ toString vmid, 1⟩)
    ∧ (ensure_template_on_node nextid vmid node target).get? 0 =
      some (SyncEv.cloneReq ⟨node, vmid, nextid,
        "tpl-" ++ toString vmid ++ "-" ++ target, 1⟩) :=
  ⟨rfl, rfl⟩

/-- C5 counterexample.  Replicating template 100 from pve1 to pve2 via the
synchronization path issues a clone named "tpl-pve1-100", not the claimed
"tpl-100-pve2". -/
theorem replica_clone_names_counterexample :
    (create_template_replica 500 "pve1" 100 "pve2").get? 0 =
      some (SyncEv.cloneReq ⟨"pve1", 100, 500, "tpl-pve1-100", 1⟩)
    ∧ "tpl-pve1-100" ≠ "tpl-" ++ toString 100 ++ "-" ++ "pve2" := by
  constructor
  · decide
  · decide

lemma lookupGroup_map_set (n : String) (e : GroupEntry) :
    ∀ gs : List (String × GroupEntry), (lookupGroup gs n).isSome = true →
      lookupGroup (gs.map fun x => if x.1 = n then (x.1, e) else x) n = some e := by
  intro gs
  induction gs with
  | nil => intro h; simp [lookupGroup] at h
  | cons x rest ih =>
    intro h
    by_cases hx : x.1 = n
    · simp [lookupGroup, hx]
    · simp only [List.map_cons, if_neg hx, lookupGroup]
      apply ih
      simpa [lookupGroup, hx] using h

lemma lookupGroup_append_new (n : String) (e : GroupEntry) :
    ∀ gs : List (String × GroupEntry), lookupGroup gs n = none →
      lookupGroup (gs ++ [(n, e)]) n = some e := by
  intro gs
  induction gs with
  | nil => intro _; simp [lookupGroup]
  | cons x rest ih =>
    intro h
    have hx : ¬x.1 = n := by
      intro hx
      rw [lookupGroup, if_pos hx] at h
      cases h
    rw [lookupGroup, if_neg hx] at h
    simp only [List.cons_append, lookupGroup, if_neg hx]
    exact ih h

lemma lookupGroup_setGroup (gs : List (String × GroupEntry)) (n : String)
    (e : GroupEntry) : lookupGroup (setGroup gs n e) n = some e := by
  unfold setGroup
  by_cases h : (lookupGroup gs n).isSome = true
  · rw [if_pos h]
    exact lookupGroup_map_set n e gs h
  · rw [if_neg h]
    exact lookupGroup_append_new n e gs (Option.not_isSome_iff_eq_none.mp h)

/-- C6 (corrected, amended form).  The stand-creation flow records the FULL
user batch in the group index when deployment is launched — before any
user's deployment runs — and a user's presence in the index is independent
of the user's deployment outcome: after `create_group` the group maps to an
entry whose members are exactly the batch, whatever the outcomes, and in
the event flow the index write strictly precedes every deployment attempt. -/
theorem create_stands_group_first (groups0 : List (String × GroupEntry))
    (name sc ul ts : String) (users : List String) (outcome : String → Bool) :
    lookupGroup (create_group groups0 name sc ul users ts) name =
      some ⟨sc, ul, users, ts⟩
    ∧ (create_stands_flow name users outcome).get? 0 =
      some (MenuEv.createGroupEv name users)
    ∧ ∀ j, j < users.length →
        (create_stands_flow name users outcome).get? (j + 1) =
          some (MenuEv.deployUserEv (users.getD j "")
            (outcome (users.getD j ""))) := by
  refine ⟨lookupGroup_setGroup groups0 name _, rfl, ?_⟩
  intro j hj
  show (users.map fun u => MenuEv.deployUserEv u (outcome u)).get? j = _
  rw [List.get?_eq_getElem?, List.getElem?_map, List.getElem?_eq_getElem hj,
    List.getD_eq_getElem users "" hj]
  rfl

/-- Witness for C6's amended behaviour at a concrete batch: the group "g"
holds alice although her (only) deployment attempt has outcome false. -/
theorem create_stands_group_first_witness :
    lookupGroup (create_group [] "g" "de_stand.yaml" "4sa_list.yaml"
        ["alice"] "t") "g" =
      some ⟨"de_stand.yaml", "4sa_list.yaml", ["alice"], "t"⟩
    ∧ (0 : Nat) < (["alice"] : List String).length
    ∧ (create_stands_flow "g" ["alice"] (fun _ => false)).get? 1 =
      some (MenuEv.deployUserEv "alice" false) := by
  refine ⟨(create_stands_group_first [] "g" "de_stand.yaml" "4sa_list.yaml"
    "t" ["alice"] (fun _ => false)).1, by decide, ?_⟩
  exact (create_stands_group_first [] "g" "de_stand.yaml" "4sa_list.yaml"
    "t" ["alice"] (fun _ => false)).2.2 0 (by decide)

/-- C6 counterexample.  With the one-user batch [alice] whose deployment
fails, the group index still lists alice (it was written with the whole
batch before the deployment attempt): the claim that a failing user is
never recorded, and that the index gains a user only after the final
deployment step succeeds, is refuted. -/
theorem create_stands_group_first_counterexample :
    lookupGroup (create_group [] "g" "de_stand.yaml" "4sa_list.yaml"
        ["alice"] "t") "g" =
      some ⟨"de_stand.yaml", "4sa_list.yaml", ["alice"], "t"⟩
    ∧ create_stands_flow "g" ["alice"] (fun _ => false) =
      [MenuEv.createGroupEv "g" ["alice"], MenuEv.deployUserEv "alice" false] := by
  constructor
  · decide
  · decide
